import Mathlib

/-!
# Verification of the trmon HTTP passive traffic analyzer core

Shallow embedding of `src/main.go` (package `main` of lgov/trmon): the
TCP-stream-to-HTTP-transaction reconstruction engine.  Pure values model
the Go structs, per-goroutine loops become trace-producing functions over
the finite sequence of parse outcomes delivered by the reassembler, and
the cross-goroutine interaction through the bounded request channel is a
step relation on an explicit system state.
-/

set_option autoImplicit false

namespace Trmon

/-- The modulus of Go `uint16` arithmetic, 2^16. -/
def u16Mod : Nat := 65536

/-- The modulus of Go `uint64` arithmetic, 2^64. -/
def u64Mod : Nat := 18446744073709551616

/-- Go `uint16` subtraction `a - b` (wraps modulo 2^16). -/
def sub16 (a b : Nat) : Nat := (a % u16Mod + (u16Mod - b % u16Mod)) % u16Mod

/-- A gopacket `Flow`: an endpoint type together with raw `src` and `dst`
endpoint bytes.  `netFlow` carries IPv4 addresses, `tcpFlow` carries ports. -/
structure Flow where
  typ : Nat
  src : List Nat
  dst : List Nat
deriving Repr, DecidableEq

/-- The reverse flow: the same metadata observed from the opposite
direction of the connection (src and dst swapped). -/
def Flow.reverse (f : Flow) : Flow := { typ := f.typ, src := f.dst, dst := f.src }

/-- FNV-1a 64-bit offset basis, from gopacket `flows.go`. -/
def fnvBasis : Nat := 14695981039346656037

/-- FNV-1a 64-bit prime, from gopacket `flows.go`. -/
def fnvPrime : Nat := 1099511628211

/-- FNV-1a hash of a byte sequence, 64-bit arithmetic
(gopacket `fnvHash`): `h ^= b; h *= fnvPrime` per byte. -/
def fnvHash (s : List Nat) : Nat :=
  s.foldl (fun h b => ((h ^^^ b % 256) * fnvPrime) % u64Mod) fnvBasis

/-- Modelled from the spec: the source computes the connection key with
`gopacket.Flow.FastHash`, an external library function not under `src/`.
The spec describes it as an order-independent hash of the undirected
endpoint pair; the gopacket implementation combines the two endpoint
hashes with addition (a commutative operation) so that a flow and its
reverse hash identically: `h = fnvHash(src) + fnvHash(dst); h ^= typ;
h *= fnvPrime`, all in `uint64`. -/
def Flow.FastHash (f : Flow) : Nat :=
  ((((fnvHash f.src + fnvHash f.dst) % u64Mod) ^^^ f.typ % u64Mod) * fnvPrime) % u64Mod

/-- The connection identity computed by `httpStreamFactory.New` and
`LogPacketSize` (`src/main.go:181,221`):
`key := netFlow.FastHash() ^ tcpFlow.FastHash()`. -/
def connectionKey (netFlow tcpFlow : Flow) : Nat :=
  netFlow.FastHash ^^^ tcpFlow.FastHash

theorem fastHash_reverse (f : Flow) : f.reverse.FastHash = f.FastHash := by
  simp [Flow.FastHash, Flow.reverse, Nat.add_comm]

/-- C2: the identity computed from one direction's flow metadata equals
the identity computed from the opposite direction's metadata: reversing
both the network flow and the transport flow leaves
`netFlow.FastHash() ^ tcpFlow.FastHash()` unchanged, because `FastHash`
combines the endpoint hashes commutatively. -/
theorem connectionKey_direction_independent (netFlow tcpFlow : Flow) :
    connectionKey netFlow.reverse tcpFlow.reverse = connectionKey netFlow tcpFlow := by
  simp [connectionKey, fastHash_reverse]

/-- A parsed HTTP request as the correlator uses it: method, target and
headers summary, plus the length of the body that `http.ReadRequest` left
unread on the stream.  The body bytes themselves are never a field: they
are only consumed (read and dropped) to reach the next message boundary. -/
structure Request where
  method : String
  target : String
  bodyLen : Nat
deriving Repr, DecidableEq

/-- A parsed HTTP response: status plus the length of the body left on the
stream, drained with `tcpreader.DiscardBytesToFirstError`. -/
structure Response where
  status : Nat
  bodyLen : Nat
deriving Repr, DecidableEq

/-- The storage collaborator, abstracted to which of its calls return an
error (`true` = the call returns a non-nil error). -/
structure StorageErr where
  openConnection : Bool
  closeConnection : Bool
  requestSent : Bool
  responseReceived : Bool
  incomingPayload : Bool
  outgoingPayload : Bool
deriving Repr, DecidableEq

/-- Observable actions of the core, in program order: storage-collaborator
calls, channel operations, body draining and log lines. -/
inductive Event where
  | closeConn
  | openConn (key : Nat)
  | pushRequest (r : Request)
  | popRequest (r : Request)
  | drainBody (n : Nat)
  | requestSent (seq : Nat) (r : Request)
  | responseReceived (seq : Nat) (r : Request)
  | incomingPayload (key n : Nat)
  | outgoingPayload (key n : Nat)
  | discardToError
  | logParseError
  | logStorageError
  | blockedForever
deriving Repr, DecidableEq

/-- One iteration's outcome of `http.ReadRequest` on the outbound stream:
either a fully parsed request, or a non-EOF parse error.  A truncated
final request surfaces as `parseError` (`io.ErrUnexpectedEOF`), never as
`io.EOF`: `net/http.readRequest` converts an EOF after the first byte into
`ErrUnexpectedEOF`, so clean end-of-input (zero bytes since the last
successful parse) is exactly the end of this token list. -/
inductive OutParse where
  | request (r : Request)
  | parseError
deriving Repr, DecidableEq

/-- The requests fully parsed off an outbound token sequence, in order. -/
def outRequests (l : List OutParse) : List Request :=
  l.filterMap fun t => match t with | .request r => some r | .parseError => none

/-- Embedding of `TCPStream.runOut` (`src/main.go:61-103`) as the trace of
events one run produces, given the sequence of parse outcomes the
reassembled stream yields and the direction's `closed` flag.
Per iteration of the Go loop:
* `io.EOF` (end of tokens): call `storage.CloseTCPConnection`, log a
  storage error if it returns one, and return;
* any other error: `tcpreader.DiscardBytesToFirstError(buf)`, then log the
  parse error unless `h.closed` is set, and loop;
* a parsed request: `req.Body.Close()` (which in `net/http` reads and
  discards the unread remainder of the body), send the request on
  `bds.requests`, call `storage.SentRequest` with the current `reqID`,
  log a storage error if any, increment `reqID`, and loop. -/
def runOut (st : StorageErr) (closed : Bool) : List OutParse → Nat → List Event
  | [], _ =>
      .closeConn :: (if st.closeConnection then [.logStorageError] else [])
  | .parseError :: rest, reqID =>
      .discardToError ::
        ((if closed then [] else [.logParseError]) ++ runOut st closed rest reqID)
  | .request r :: rest, reqID =>
      .drainBody r.bodyLen :: .pushRequest r :: .requestSent reqID r ::
        ((if st.requestSent then [.logStorageError] else []) ++
          runOut st closed rest (reqID + 1))

theorem runOut_count_closeConn (st : StorageErr) (closed : Bool) :
    ∀ (input : List OutParse) (reqID : Nat),
      (runOut st closed input reqID).count .closeConn = 1 := by
  intro input
  induction input with
  | nil =>
      intro reqID
      by_cases h : st.closeConnection <;>
        simp [runOut, h, List.count_cons]
  | cons tok rest ih =>
      intro reqID
      cases tok with
      | parseError =>
          cases closed <;>
            simp [runOut, List.count_cons, List.count_append, ih]
      | request r =>
          rcases st with ⟨o, c, q, p, i, g⟩
          cases q <;>
            simp [runOut, List.count_cons, List.count_append, ih]

theorem runOut_no_request_no_sent (st : StorageErr) (closed : Bool) :
    ∀ (input : List OutParse) (reqID : Nat), outRequests input = [] →
      ∀ (seq : Nat) (r : Request), Event.requestSent seq r ∉ runOut st closed input reqID := by
  intro input
  induction input with
  | nil =>
      intro reqID _ seq r
      by_cases h : st.closeConnection <;> simp [runOut, h]
  | cons tok rest ih =>
      intro reqID hempty seq r
      cases tok with
      | parseError =>
          have hrest : outRequests rest = [] := by
            simpa [outRequests, List.filterMap_cons] using hempty
          cases closed <;>
            simp [runOut, List.mem_append, ih reqID hrest]
      | request q =>
          exact absurd hempty (by simp [outRequests, List.filterMap_cons])

theorem runOut_request_block_aux (st : StorageErr) (closed : Bool) :
    ∀ (input : List OutParse) (n i : Nat) (h : i < (outRequests input).length),
      ∃ pre suf : List Event,
        pre ++
            [Event.drainBody (((outRequests input).get ⟨i, h⟩).bodyLen),
             Event.pushRequest ((outRequests input).get ⟨i, h⟩),
             Event.requestSent (n + i) ((outRequests input).get ⟨i, h⟩)] ++
            suf =
          runOut st closed input n := by
  intro input
  induction input with
  | nil =>
      intro n i h
      simp [outRequests] at h
  | cons tok rest ih =>
      intro n i h
      cases tok with
      | parseError =>
          have h' : i < (outRequests rest).length := by
            simpa [outRequests, List.filterMap_cons] using h
          obtain ⟨pre, suf, hps⟩ := ih n i h'
          refine ⟨.discardToError :: ((if closed then [] else [.logParseError]) ++ pre),
            suf, ?_⟩
          have hget : (outRequests (OutParse.parseError :: rest)).get ⟨i, h⟩ =
              (outRequests rest).get ⟨i, h'⟩ := by
            simp [outRequests, List.filterMap_cons]
          rw [hget]
          simp only [runOut, List.cons_append, List.append_assoc] at hps ⊢
          rw [hps]
      | request r =>
          cases i with
          | zero =>
              refine ⟨[],
                (if st.requestSent then [.logStorageError] else []) ++
                  runOut st closed rest (n + 1), ?_⟩
              simp [outRequests, List.filterMap_cons, runOut]
          | succ j =>
              have h' : j < (outRequests rest).length := by
                simpa [outRequests, List.filterMap_cons] using h
              obtain ⟨pre, suf, hps⟩ := ih (n + 1) j h'
              refine ⟨.drainBody r.bodyLen :: .pushRequest r :: .requestSent n r ::
                ((if st.requestSent then [.logStorageError] else []) ++ pre), suf, ?_⟩
              have hget : (outRequests (OutParse.request r :: rest)).get ⟨j + 1, h⟩ =
                  (outRequests rest).get ⟨j, h'⟩ := by
                simp [outRequests, List.filterMap_cons]
              rw [hget]
              have harith : n + 1 + j = n + (j + 1) := by omega
              rw [harith] at hps
              simp only [runOut, List.cons_append, List.append_assoc] at hps ⊢
              rw [hps]

/-- C4: for every fully parsed request on the outbound stream — the `i`-th
one, for any `i` — the trace of `runOut` contains, contiguously and in this
order: the read-and-drop drain of the request body (`req.Body.Close()`),
then the push onto the correlator's FIFO channel, then the `SentRequest`
notification with sequence index `i`.  So the body is discarded before the
request is pushed and before the notification is issued, and the pushed
request object retains no body bytes. -/
theorem runOut_drains_body_before_push_and_notify
    (st : StorageErr) (closed : Bool) (input : List OutParse)
    (i : Nat) (h : i < (outRequests input).length) :
    ∃ pre suf : List Event,
      pre ++
          [Event.drainBody (((outRequests input).get ⟨i, h⟩).bodyLen),
           Event.pushRequest ((outRequests input).get ⟨i, h⟩),
           Event.requestSent i ((outRequests input).get ⟨i, h⟩)] ++
          suf =
        runOut st closed input 0 := by
  have := runOut_request_block_aux st closed input 0 i h
  simpa using this

/-- Witness for C4 at a concrete input: one request with a 5-byte body
followed by end-of-input. -/
theorem runOut_drains_body_before_push_and_notify_witness :
    0 < (outRequests [.request ⟨"GET", "/a", 5⟩]).length ∧
      ∃ pre suf : List Event,
        pre ++
            [Event.drainBody (((outRequests [.request ⟨"GET", "/a", 5⟩]).get
                ⟨0, by decide⟩).bodyLen),
             Event.pushRequest ((outRequests [.request ⟨"GET", "/a", 5⟩]).get
                ⟨0, by decide⟩),
             Event.requestSent 0 ((outRequests [.request ⟨"GET", "/a", 5⟩]).get
                ⟨0, by decide⟩)] ++
            suf =
          runOut ⟨false, false, false, false, false, false⟩ false
            [.request ⟨"GET", "/a", 5⟩] 0 :=
  ⟨by decide,
   runOut_drains_body_before_push_and_notify
     ⟨false, false, false, false, false, false⟩ false
     [.request ⟨"GET", "/a", 5⟩] 0 (by decide)⟩

/-- C5: every run of the outbound reader ends, on clean end-of-input, with
exactly one `CloseTCPConnection` notification — for any `closed` flag, so
also during forced shutdown teardown — and an input whose final partial
request never completes (it yields a parse error and then end-of-input, so
no request token) produces that close notification but no `SentRequest`
notification at all. -/
theorem runOut_close_once_and_partial_request_unsent
    (st : StorageErr) (closed : Bool) (input : List OutParse) (reqID : Nat) :
    (runOut st closed input reqID).count .closeConn = 1 ∧
      (outRequests input = [] →
        ∀ (seq : Nat) (r : Request),
          Event.requestSent seq r ∉ runOut st closed input reqID) :=
  ⟨runOut_count_closeConn st closed input reqID,
   fun h seq r => runOut_no_request_no_sent st closed input reqID h seq r⟩

/-- Witness for C5 at a concrete input: a single truncated request on the
stream (one parse error, then end-of-input) during normal operation. -/
theorem runOut_close_once_and_partial_request_unsent_witness :
    ((runOut ⟨false, false, false, false, false, false⟩ false [.parseError] 0).count
        .closeConn = 1 ∧
      (outRequests [.parseError] = [] →
        ∀ (seq : Nat) (r : Request),
          Event.requestSent seq r ∉
            runOut ⟨false, false, false, false, false, false⟩ false [.parseError] 0)) ∧
      outRequests [.parseError] = [] :=
  ⟨runOut_close_once_and_partial_request_unsent
      ⟨false, false, false, false, false, false⟩ false [.parseError] 0,
   by decide⟩

/-- One iteration's outcome of `http.ReadResponse` on the inbound stream:
a fully parsed response, a non-EOF parse error, or `io.EOF` mid-parse. -/
inductive InParse where
  | response (r : Response)
  | parseError
  | eofMidParse
deriving Repr, DecidableEq

/-- The request the response parser uses: the held `reqInProgress` if set,
else the next request popped from the FIFO channel (`<-bds.requests`),
together with the remaining channel contents and the pop event; `none`
when the channel is empty and no producer remains (the receive blocks). -/
def takeRequest : Option Request → List Request →
    Option (Request × List Request × List Event)
  | some r, q => some (r, q, [])
  | none, r :: q => some (r, q, [Event.popRequest r])
  | none, [] => none

/-- Embedding of `TCPStream.runIn` (`src/main.go:106-158`) as the trace of
events one run produces.  Inputs: the sequence of response-parse outcomes
the reassembled stream yields, the successive contents of the request
channel, the held `reqInProgress`, and the direction's `closed` flag.
Per iteration of the Go loop:
* `buf.Peek(1)` returns `io.EOF` (end of tokens): return;
* otherwise take the request this response answers (`h.reqInProgress`, or
  pop the channel and set `reqInProgress` to the popped request);
* `http.ReadResponse` returns `io.EOF`: return;
* any other error: `tcpreader.DiscardBytesToFirstError(buf)`, log the
  parse error unless `h.closed`, keep `reqInProgress`, and loop;
* a parsed response: drain and close the response body, call
  `storage.ReceivedResponse` with the current `reqID` and the held
  request, log a storage error if any, increment `reqID`, clear
  `reqInProgress`, and loop. -/
def runIn (st : StorageErr) (closed : Bool) :
    List InParse → List Request → Option Request → Nat → List Event
  | [], _, _, _ => []
  | tok :: rest, queue, inProg, reqID =>
      match takeRequest inProg queue with
      | none => [.blockedForever]
      | some (r, queue', popEv) =>
          popEv ++
            match tok with
            | .eofMidParse => []
            | .parseError =>
                .discardToError ::
                  ((if closed then [] else [.logParseError]) ++
                    runIn st closed rest queue' (some r) reqID)
            | .response resp =>
                .drainBody resp.bodyLen :: .responseReceived reqID r ::
                  ((if st.responseReceived then [.logStorageError] else []) ++
                    runIn st closed rest queue' none (reqID + 1))

/-- C8: on a malformed-message parse error on either direction's stream,
the reader discards the remaining undecodable bytes
(`tcpreader.DiscardBytesToFirstError`), logs the error exactly when the
stream's `closed` flag is not set (suppressing it when shutdown marked the
stream closed), and then continues parsing the same stream — the trace
continues with the run on the rest of the input; the task does not
terminate.  First conjunct: the outbound reader; second: the inbound
reader (which keeps the popped request held as `reqInProgress` and does
not advance the sequence counter). -/
theorem parse_error_discard_log_iff_open_and_continue
    (st : StorageErr) (closed : Bool) (restOut : List OutParse)
    (restIn : List InParse) (queue : List Request) (r : Request) (reqID : Nat) :
    runOut st closed (.parseError :: restOut) reqID =
        .discardToError ::
          ((if closed then [] else [.logParseError]) ++
            runOut st closed restOut reqID) ∧
      runIn st closed (.parseError :: restIn) queue (some r) reqID =
        .discardToError ::
          ((if closed then [] else [.logParseError]) ++
            runIn st closed restIn queue (some r) reqID) := by
  constructor
  · rfl
  · simp [runIn, takeRequest]

/-- The per-direction stream metadata the registry and the accountant
consult: the `netFlow` and `tcpFlow` fields of a `TCPStream`. -/
structure TCPStreamInfo where
  netFlow : Flow
  tcpFlow : Flow
deriving Repr, DecidableEq

/-- A `BidiStream` entry as the registry sees it: the connection key and
the two directional streams.  `inn` models the Go field `in` (a reserved
word in Lean); `none` models a nil pointer.  The request channel contents
live in the concurrent system state below. -/
structure BidiEntry where
  key : Nat
  out : Option TCPStreamInfo
  inn : Option TCPStreamInfo
deriving Repr, DecidableEq

/-- The `httpStreamFactory` map `bidiStreams map[uint64]*BidiStream`,
modelled as an association list (first binding for a key wins). -/
structure FactoryState where
  bidiStreams : List (Nat × BidiEntry)
deriving Repr, DecidableEq

/-- Go map read `h.bidiStreams[key]`: `none` models the nil result for an
absent key. -/
def lookupBds : List (Nat × BidiEntry) → Nat → Option BidiEntry
  | [], _ => none
  | (k, v) :: rest, key => if k = key then some v else lookupBds rest key

/-- Go map write `h.bidiStreams[key] = bds`: replace the binding if the
key is present, append it otherwise. -/
def insertBds : List (Nat × BidiEntry) → Nat → BidiEntry → List (Nat × BidiEntry)
  | [], key, v => [(key, v)]
  | (k, w) :: rest, key, v =>
      if k = key then (key, v) :: rest else (k, w) :: insertBds rest key v

theorem lookupBds_insertBds_self (m : List (Nat × BidiEntry)) (key : Nat) (v : BidiEntry) :
    lookupBds (insertBds m key v) key = some v := by
  induction m with
  | nil => simp [insertBds, lookupBds]
  | cons p rest ih =>
      obtain ⟨k, w⟩ := p
      by_cases h : k = key <;> simp [insertBds, lookupBds, h, ih]

/-- Which reader goroutine a call to `New` starts. -/
inductive StartedTask where
  | runOutTask
  | runInTask
deriving Repr, DecidableEq

/-- Embedding of `httpStreamFactory.New` (`src/main.go:172-214`).  Returns
the updated factory state, the storage-facing events of this call, and
which reader goroutine is started.  The computation: derive the connection
key from the two flows (`netFlow.FastHash() ^ tcpFlow.FastHash()`), look
the key up in `bidiStreams`;
* absent: store a new `BidiStream` whose `out` is the new stream and whose
  `in` is nil, make no storage call, start `runOut`;
* present: set the entry's `in` to the new stream, call
  `storage.OpenTCPConnection` (logging its error if non-nil), start
  `runIn`. -/
def factoryNew (st : StorageErr) (fs : FactoryState) (netFlow tcpFlow : Flow) :
    FactoryState × List Event × StartedTask :=
  let key := connectionKey netFlow tcpFlow
  let hstream : TCPStreamInfo := { netFlow := netFlow, tcpFlow := tcpFlow }
  match lookupBds fs.bidiStreams key with
  | none =>
      let bds : BidiEntry := { key := key, out := some hstream, inn := none }
      (⟨insertBds fs.bidiStreams key bds⟩, [], .runOutTask)
  | some bds =>
      let bds' : BidiEntry := { bds with inn := some hstream }
      (⟨insertBds fs.bidiStreams key bds'⟩,
        .openConn key :: (if st.openConnection then [.logStorageError] else []),
        .runInTask)

/-- C6: register/attach semantics of the registry.  First conjunct — a
first-seen identity: the call stores a correlator whose outbound stream is
populated and whose inbound stream is nil, makes no storage call (in
particular no `OpenTCPConnection`), and starts the outbound reader.
Second conjunct — the second direction of an identity already present:
the existing correlator is the one updated (its key and outbound stream
are kept), its inbound stream is attached, exactly one `OpenTCPConnection`
notification is issued in that call, and the inbound reader is started. -/
theorem factoryNew_register_attach
    (st : StorageErr) (fs : FactoryState) (netFlow tcpFlow : Flow) :
    (lookupBds fs.bidiStreams (connectionKey netFlow tcpFlow) = none →
      (factoryNew st fs netFlow tcpFlow).2.1 = [] ∧
      (factoryNew st fs netFlow tcpFlow).2.2 = .runOutTask ∧
      lookupBds (factoryNew st fs netFlow tcpFlow).1.bidiStreams
          (connectionKey netFlow tcpFlow) =
        some { key := connectionKey netFlow tcpFlow,
               out := some { netFlow := netFlow, tcpFlow := tcpFlow },
               inn := none }) ∧
    (∀ bds : BidiEntry,
      lookupBds fs.bidiStreams (connectionKey netFlow tcpFlow) = some bds →
      ((factoryNew st fs netFlow tcpFlow).2.1.count
          (.openConn (connectionKey netFlow tcpFlow)) = 1 ∧
        (factoryNew st fs netFlow tcpFlow).2.2 = .runInTask ∧
        lookupBds (factoryNew st fs netFlow tcpFlow).1.bidiStreams
            (connectionKey netFlow tcpFlow) =
          some { key := bds.key, out := bds.out,
                 inn := some { netFlow := netFlow, tcpFlow := tcpFlow } })) := by
  constructor
  · intro h
    simp [factoryNew, h, lookupBds_insertBds_self]
  · intro bds h
    refine ⟨?_, ?_, ?_⟩
    · rcases st with ⟨o, c, q, p, i, g⟩
      cases o <;> simp [factoryNew, h, List.count_cons]
    · simp [factoryNew, h]
    · simp [factoryNew, h, lookupBds_insertBds_self]

/-- Witness for C6 at concrete inputs: one connection observed first on
its outbound direction and then on its (reversed) inbound direction. -/
theorem factoryNew_register_attach_witness :
    (lookupBds (FactoryState.mk []).bidiStreams
        (connectionKey ⟨1, [10], [20]⟩ ⟨2, [3], [4]⟩) = none ∧
      (factoryNew ⟨false, false, false, false, false, false⟩ ⟨[]⟩
          ⟨1, [10], [20]⟩ ⟨2, [3], [4]⟩).2.1 = [] ∧
      (factoryNew ⟨false, false, false, false, false, false⟩ ⟨[]⟩
          ⟨1, [10], [20]⟩ ⟨2, [3], [4]⟩).2.2 = .runOutTask ∧
      lookupBds (factoryNew ⟨false, false, false, false, false, false⟩ ⟨[]⟩
          ⟨1, [10], [20]⟩ ⟨2, [3], [4]⟩).1.bidiStreams
          (connectionKey ⟨1, [10], [20]⟩ ⟨2, [3], [4]⟩) =
        some { key := connectionKey ⟨1, [10], [20]⟩ ⟨2, [3], [4]⟩,
               out := some { netFlow := ⟨1, [10], [20]⟩, tcpFlow := ⟨2, [3], [4]⟩ },
               inn := none }) ∧
    (lookupBds (factoryNew ⟨false, false, false, false, false, false⟩ ⟨[]⟩
          ⟨1, [10], [20]⟩ ⟨2, [3], [4]⟩).1.bidiStreams
        (connectionKey ⟨1, [20], [10]⟩ ⟨2, [4], [3]⟩) =
      some { key := connectionKey ⟨1, [10], [20]⟩ ⟨2, [3], [4]⟩,
             out := some { netFlow := ⟨1, [10], [20]⟩, tcpFlow := ⟨2, [3], [4]⟩ },
             inn := none } ∧
      (factoryNew ⟨false, false, false, false, false, false⟩
          (factoryNew ⟨false, false, false, false, false, false⟩ ⟨[]⟩
            ⟨1, [10], [20]⟩ ⟨2, [3], [4]⟩).1
          ⟨1, [20], [10]⟩ ⟨2, [4], [3]⟩).2.1.count
          (.openConn (connectionKey ⟨1, [20], [10]⟩ ⟨2, [4], [3]⟩)) = 1) :=
  ⟨⟨by decide,
    (factoryNew_register_attach ⟨false, false, false, false, false, false⟩ ⟨[]⟩
        ⟨1, [10], [20]⟩ ⟨2, [3], [4]⟩).1 (by decide)⟩,
   ⟨by decide,
    ((factoryNew_register_attach ⟨false, false, false, false, false, false⟩
          (factoryNew ⟨false, false, false, false, false, false⟩ ⟨[]⟩
            ⟨1, [10], [20]⟩ ⟨2, [3], [4]⟩).1
          ⟨1, [20], [10]⟩ ⟨2, [4], [3]⟩).2
        { key := connectionKey ⟨1, [10], [20]⟩ ⟨2, [3], [4]⟩,
          out := some { netFlow := ⟨1, [10], [20]⟩, tcpFlow := ⟨2, [3], [4]⟩ },
          inn := none }
        (by decide)).1⟩⟩

/-- The IPv4 layer fields `LogPacketSize` reads: `Length` (total length,
`uint16`) and `IHL` (header length in 32-bit words, a 4-bit field). -/
structure IPv4Header where
  Length : Nat
  IHL : Nat
deriving Repr, DecidableEq

/-- The TCP layer field `LogPacketSize` reads: `DataOffset` (header length
in 32-bit words, a 4-bit field). -/
structure TCPHeader where
  DataOffset : Nat
deriving Repr, DecidableEq

/-- A decoded packet as `LogPacketSize` consumes it: network and transport
flows, and the IPv4 and TCP layers, each `none` when the packet lacks that
layer (the Go type assertion `ipv4Layer.(*layers.IPv4)` with a discarded
`ok` then yields a nil pointer). -/
structure Packet where
  netFlow : Flow
  tcpFlow : Flow
  ipv4 : Option IPv4Header
  tcp : Option TCPHeader
deriving Repr, DecidableEq

/-- The payload-length computation of `src/main.go:234`:
`uint32(ipv4.Length - uint16(ipv4.IHL)*4 - uint16(tcp.DataOffset)*4)`,
performed in wrapping `uint16` arithmetic and then widened. -/
def payloadLengthOf (ip : IPv4Header) (t : TCPHeader) : Nat :=
  sub16 (sub16 ip.Length (ip.IHL * 4)) (t.DataOffset * 4)

/-- Result of one `LogPacketSize` call: early return without any storage
call, a nil-pointer dereference fault, or a storage notification where
`panicked` records whether the subsequent `panic(err)` fired because the
storage call returned an error. -/
inductive PacketOutcome where
  | ignored
  | nilDeref
  | notified (e : Event) (panicked : Bool)
deriving Repr, DecidableEq

/-- Whether the call ended in a runtime panic (`panic(err)` on a storage
error, `src/main.go:240,246`). -/
def PacketOutcome.panics : PacketOutcome → Bool
  | .notified _ b => b
  | _ => false

/-- Embedding of `httpStreamFactory.LogPacketSize` (`src/main.go:218-249`).
The computation: derive the connection key from the packet's flows; fetch
the IPv4 and TCP layers (nil when absent, the `ok` of each type assertion
being discarded); look the key up in `bidiStreams`; if the entry is absent
or either directional stream is nil, return silently; otherwise compute
the payload length (dereferencing the layer pointers) and notify
`IncomingTCPPacket` when the packet's network flow equals the inbound
stream's network flow, `OutgoingTCPPacket` otherwise, panicking if the
storage call returns an error. -/
def logPacketSize (st : StorageErr) (fs : FactoryState) (p : Packet) : PacketOutcome :=
  let key := connectionKey p.netFlow p.tcpFlow
  match lookupBds fs.bidiStreams key with
  | none => .ignored
  | some bds =>
      match bds.inn, bds.out with
      | some innS, some _ =>
          match p.ipv4, p.tcp with
          | some ip, some t =>
              let len := payloadLengthOf ip t
              if innS.netFlow = p.netFlow then
                .notified (.incomingPayload key len) st.incomingPayload
              else
                .notified (.outgoingPayload key len) st.outgoingPayload
          | _, _ => .nilDeref
      | _, _ => .ignored

theorem sub16_eq_sub (a b : Nat) (ha : a < u16Mod) (hb : b ≤ a) :
    sub16 a b = a - b := by
  have hb' : b < u16Mod := lt_of_le_of_lt hb ha
  unfold sub16 u16Mod at *
  rw [Nat.mod_eq_of_lt ha, Nat.mod_eq_of_lt hb']
  have h : a + (65536 - b) = (a - b) + 65536 := by omega
  rw [h, Nat.add_mod_right, Nat.mod_eq_of_lt (by omega)]

theorem payloadLengthOf_eq (ip : IPv4Header) (t : TCPHeader)
    (hlen : ip.Length < u16Mod) (hihl : ip.IHL < 16) (hoff : t.DataOffset < 16)
    (hfit : ip.IHL * 4 + t.DataOffset * 4 ≤ ip.Length) :
    payloadLengthOf ip t = ip.Length - ip.IHL * 4 - t.DataOffset * 4 := by
  unfold payloadLengthOf
  rw [sub16_eq_sub ip.Length (ip.IHL * 4) hlen (by omega)]
  rw [sub16_eq_sub (ip.Length - ip.IHL * 4) (t.DataOffset * 4) (by omega) (by omega)]

/-- C7: the packet accountant.  First conjunct — unknown connection:
silent ignore, no storage call, no fault.  Second conjunct — connection
present but not yet established (either directional stream nil): silent
ignore.  Third conjunct — established connection with both layers present
and well-formed header fields: the payload length equals the IPv4 total
length minus 4·IHL minus 4·DataOffset, reported as `IncomingTCPPacket`
exactly when the packet's network flow equals the inbound stream's network
flow and as `OutgoingTCPPacket` otherwise. -/
theorem logPacketSize_accountant (st : StorageErr) (fs : FactoryState) (p : Packet) :
    (lookupBds fs.bidiStreams (connectionKey p.netFlow p.tcpFlow) = none →
      logPacketSize st fs p = .ignored) ∧
    (∀ bds : BidiEntry,
      lookupBds fs.bidiStreams (connectionKey p.netFlow p.tcpFlow) = some bds →
      bds.inn = none ∨ bds.out = none → logPacketSize st fs p = .ignored) ∧
    (∀ (bds : BidiEntry) (innS outS : TCPStreamInfo) (ip : IPv4Header) (t : TCPHeader),
      lookupBds fs.bidiStreams (connectionKey p.netFlow p.tcpFlow) = some bds →
      bds.inn = some innS → bds.out = some outS →
      p.ipv4 = some ip → p.tcp = some t →
      ip.Length < u16Mod → ip.IHL < 16 → t.DataOffset < 16 →
      ip.IHL * 4 + t.DataOffset * 4 ≤ ip.Length →
      logPacketSize st fs p =
        if innS.netFlow = p.netFlow then
          .notified (.incomingPayload (connectionKey p.netFlow p.tcpFlow)
              (ip.Length - ip.IHL * 4 - t.DataOffset * 4)) st.incomingPayload
        else
          .notified (.outgoingPayload (connectionKey p.netFlow p.tcpFlow)
              (ip.Length - ip.IHL * 4 - t.DataOffset * 4)) st.outgoingPayload) := by
  refine ⟨fun h => by simp [logPacketSize, h], ?_, ?_⟩
  · intro bds h hnil
    rcases hnil with hnil | hnil <;>
      · rcases bds with ⟨k, o, i⟩
        cases o <;> cases i <;> simp_all [logPacketSize]
  · intro bds innS outS ip t h hinn hout hip ht hlen hihl hoff hfit
    rw [← payloadLengthOf_eq ip t hlen hihl hoff (by omega)]
    simp [logPacketSize, h, hinn, hout, hip, ht]

/-- Witness for C7 at concrete inputs: an established connection (key
bound, both streams attached) and a 60-byte IPv4/TCP packet with 20-byte
headers on its inbound flow, yielding a 20-byte incoming payload. -/
theorem logPacketSize_accountant_witness :
    (lookupBds
        [(connectionKey ⟨1, [10], [20]⟩ ⟨2, [3], [4]⟩,
          ⟨connectionKey ⟨1, [10], [20]⟩ ⟨2, [3], [4]⟩,
            some ⟨⟨1, [10], [20]⟩, ⟨2, [3], [4]⟩⟩,
            some ⟨⟨1, [20], [10]⟩, ⟨2, [4], [3]⟩⟩⟩)]
        (connectionKey ⟨1, [20], [10]⟩ ⟨2, [4], [3]⟩) =
      some ⟨connectionKey ⟨1, [10], [20]⟩ ⟨2, [3], [4]⟩,
            some ⟨⟨1, [10], [20]⟩, ⟨2, [3], [4]⟩⟩,
            some ⟨⟨1, [20], [10]⟩, ⟨2, [4], [3]⟩⟩⟩) ∧
    logPacketSize ⟨false, false, false, false, false, false⟩
        ⟨[(connectionKey ⟨1, [10], [20]⟩ ⟨2, [3], [4]⟩,
          ⟨connectionKey ⟨1, [10], [20]⟩ ⟨2, [3], [4]⟩,
            some ⟨⟨1, [10], [20]⟩, ⟨2, [3], [4]⟩⟩,
            some ⟨⟨1, [20], [10]⟩, ⟨2, [4], [3]⟩⟩⟩)]⟩
        ⟨⟨1, [20], [10]⟩, ⟨2, [4], [3]⟩, some ⟨60, 5⟩, some ⟨5⟩⟩ =
      .notified (.incomingPayload (connectionKey ⟨1, [20], [10]⟩ ⟨2, [4], [3]⟩) 20)
        false := by
  constructor
  · decide
  · have h := (logPacketSize_accountant ⟨false, false, false, false, false, false⟩
      ⟨[(connectionKey ⟨1, [10], [20]⟩ ⟨2, [3], [4]⟩,
        ⟨connectionKey ⟨1, [10], [20]⟩ ⟨2, [3], [4]⟩,
          some ⟨⟨1, [10], [20]⟩, ⟨2, [3], [4]⟩⟩,
          some ⟨⟨1, [20], [10]⟩, ⟨2, [4], [3]⟩⟩⟩)]⟩
      ⟨⟨1, [20], [10]⟩, ⟨2, [4], [3]⟩, some ⟨60, 5⟩, some ⟨5⟩⟩).2.2
      ⟨connectionKey ⟨1, [10], [20]⟩ ⟨2, [3], [4]⟩,
        some ⟨⟨1, [10], [20]⟩, ⟨2, [3], [4]⟩⟩,
        some ⟨⟨1, [20], [10]⟩, ⟨2, [4], [3]⟩⟩⟩
      ⟨⟨1, [20], [10]⟩, ⟨2, [4], [3]⟩⟩ ⟨⟨1, [10], [20]⟩, ⟨2, [3], [4]⟩⟩
      ⟨60, 5⟩ ⟨5⟩ (by decide) (by decide) (by decide) (by decide) (by decide)
      (by decide) (by decide) (by decide) (by decide)
    simpa using h

/-- C10: nil-pointer behaviour of `LogPacketSize`.  First conjunct — for a
packet of an established connection that lacks the IPv4 layer or the TCP
layer, the payload-length computation dereferences a nil layer pointer
(runtime fault).  Second conjunct — when both layers are present the call
never reaches the nil dereference, whatever the registry holds: the
function is total exactly under that precondition. -/
theorem logPacketSize_nil_deref_iff_missing_layer
    (st : StorageErr) (fs : FactoryState) (p : Packet) :
    (∀ (bds : BidiEntry) (innS outS : TCPStreamInfo),
      lookupBds fs.bidiStreams (connectionKey p.netFlow p.tcpFlow) = some bds →
      bds.inn = some innS → bds.out = some outS →
      p.ipv4 = none ∨ p.tcp = none →
      logPacketSize st fs p = .nilDeref) ∧
    (p.ipv4 ≠ none → p.tcp ≠ none → logPacketSize st fs p ≠ .nilDeref) := by
  constructor
  · intro bds innS outS h hinn hout hmiss
    rcases hmiss with hmiss | hmiss <;>
      · rcases p with ⟨nf, tf, oip, ot⟩
        cases oip <;> cases ot <;> simp_all [logPacketSize]
  · intro hip ht
    rcases p with ⟨nf, tf, oip, ot⟩
    cases oip with
    | none => exact absurd rfl hip
    | some ip =>
        cases ot with
        | none => exact absurd rfl ht
        | some t =>
            rcases h : lookupBds fs.bidiStreams (connectionKey nf tf) with _ | bds
            · simp [logPacketSize, h]
            · rcases bds with ⟨k, o, i⟩
              cases o with
              | none => cases i <;> simp [logPacketSize, h]
              | some oS =>
                  cases i with
                  | none => simp [logPacketSize, h]
                  | some iS =>
                      simp only [logPacketSize, h]
                      split <;> simp

/-- Witness for C10 at concrete inputs: a non-IPv4 packet of an
established connection faults; the same packet with both layers does not. -/
theorem logPacketSize_nil_deref_iff_missing_layer_witness :
    (lookupBds
        [(connectionKey ⟨1, [10], [20]⟩ ⟨2, [3], [4]⟩,
          ⟨connectionKey ⟨1, [10], [20]⟩ ⟨2, [3], [4]⟩,
            some ⟨⟨1, [10], [20]⟩, ⟨2, [3], [4]⟩⟩,
            some ⟨⟨1, [20], [10]⟩, ⟨2, [4], [3]⟩⟩⟩)]
        (connectionKey ⟨1, [10], [20]⟩ ⟨2, [3], [4]⟩) =
      some ⟨connectionKey ⟨1, [10], [20]⟩ ⟨2, [3], [4]⟩,
            some ⟨⟨1, [10], [20]⟩, ⟨2, [3], [4]⟩⟩,
            some ⟨⟨1, [20], [10]⟩, ⟨2, [4], [3]⟩⟩⟩) ∧
    logPacketSize ⟨false, false, false, false, false, false⟩
        ⟨[(connectionKey ⟨1, [10], [20]⟩ ⟨2, [3], [4]⟩,
          ⟨connectionKey ⟨1, [10], [20]⟩ ⟨2, [3], [4]⟩,
            some ⟨⟨1, [10], [20]⟩, ⟨2, [3], [4]⟩⟩,
            some ⟨⟨1, [20], [10]⟩, ⟨2, [4], [3]⟩⟩⟩)]⟩
        ⟨⟨1, [10], [20]⟩, ⟨2, [3], [4]⟩, none, some ⟨5⟩⟩ = .nilDeref := by
  constructor
  · decide
  · exact (logPacketSize_nil_deref_iff_missing_layer
      ⟨false, false, false, false, false, false⟩
      ⟨[(connectionKey ⟨1, [10], [20]⟩ ⟨2, [3], [4]⟩,
        ⟨connectionKey ⟨1, [10], [20]⟩ ⟨2, [3], [4]⟩,
          some ⟨⟨1, [10], [20]⟩, ⟨2, [3], [4]⟩⟩,
          some ⟨⟨1, [20], [10]⟩, ⟨2, [4], [3]⟩⟩⟩)]⟩
      ⟨⟨1, [10], [20]⟩, ⟨2, [3], [4]⟩, none, some ⟨5⟩⟩).1
      ⟨connectionKey ⟨1, [10], [20]⟩ ⟨2, [3], [4]⟩,
        some ⟨⟨1, [10], [20]⟩, ⟨2, [3], [4]⟩⟩,
        some ⟨⟨1, [20], [10]⟩, ⟨2, [4], [3]⟩⟩⟩
      ⟨⟨1, [20], [10]⟩, ⟨2, [4], [3]⟩⟩ ⟨⟨1, [10], [20]⟩, ⟨2, [3], [4]⟩⟩
      (by decide) (by decide) (by decide) (Or.inl (by decide))

/-- Sample outbound-direction network flow for concrete runs. -/
def sampleNet : Flow := ⟨1, [10], [20]⟩

/-- Sample outbound-direction transport flow for concrete runs. -/
def sampleTcp : Flow := ⟨2, [3], [4]⟩

/-- The inbound direction of `sampleNet`. -/
def sampleNetRev : Flow := ⟨1, [20], [10]⟩

/-- The inbound direction of `sampleTcp`. -/
def sampleTcpRev : Flow := ⟨2, [4], [3]⟩

/-- An established registry entry for the sample connection: both
directional streams attached. -/
def sampleEntry : BidiEntry :=
  ⟨connectionKey sampleNet sampleTcp,
    some ⟨sampleNet, sampleTcp⟩, some ⟨sampleNetRev, sampleTcpRev⟩⟩

/-- A factory state holding the established sample connection. -/
def sampleFactory : FactoryState :=
  ⟨[(connectionKey sampleNet sampleTcp, sampleEntry)]⟩

/-- A storage collaborator all of whose calls return errors. -/
def errStorage : StorageErr := ⟨true, true, true, true, true, true⟩

/-- A 60-byte IPv4/TCP packet with 20-byte headers on the sample
connection's inbound flow. -/
def samplePacketIn : Packet := ⟨sampleNetRev, sampleTcpRev, some ⟨60, 5⟩, some ⟨5⟩⟩

/-- C3 counterexample: the claim says no storage-write error is ever fatal
or crashes the process, but with an established connection in the registry
and a storage collaborator whose `IncomingTCPPacket` returns an error,
`LogPacketSize` executes `panic(err)` (`src/main.go:240`): the error is
not logged-and-survived, it crashes the process. -/
theorem storage_error_fatal_counterexample :
    (logPacketSize errStorage sampleFactory samplePacketIn).panics = true := by
  decide

/-- C3 amended: errors returned by `CloseTCPConnection`, `SentRequest`,
`ReceivedResponse` and `OpenTCPConnection` are logged and processing
continues (first four conjuncts: each trace logs exactly when the call
errs and then carries on — the reader loops recurse, the factory call
completes); but an error returned by `IncomingTCPPacket` or
`OutgoingTCPPacket` makes `LogPacketSize` panic (last conjunct: the
established-connection path panics exactly when the matching payload call
errs). -/
theorem storage_error_logged_except_payload_calls
    (st : StorageErr) (closed : Bool) (restOut : List OutParse) (restIn : List InParse)
    (queue : List Request) (r : Request) (resp : Response) (reqID : Nat)
    (fs : FactoryState) (netFlow tcpFlow : Flow) (p : Packet) :
    (runOut st closed [] reqID =
      .closeConn :: (if st.closeConnection then [.logStorageError] else [])) ∧
    (runOut st closed (.request r :: restOut) reqID =
      .drainBody r.bodyLen :: .pushRequest r :: .requestSent reqID r ::
        ((if st.requestSent then [.logStorageError] else []) ++
          runOut st closed restOut (reqID + 1))) ∧
    (runIn st closed (.response resp :: restIn) queue (some r) reqID =
      .drainBody resp.bodyLen :: .responseReceived reqID r ::
        ((if st.responseReceived then [.logStorageError] else []) ++
          runIn st closed restIn queue none (reqID + 1))) ∧
    (∀ bds : BidiEntry,
      lookupBds fs.bidiStreams (connectionKey netFlow tcpFlow) = some bds →
      (factoryNew st fs netFlow tcpFlow).2.1 =
        .openConn (connectionKey netFlow tcpFlow) ::
          (if st.openConnection then [.logStorageError] else [])) ∧
    (∀ (bds : BidiEntry) (innS outS : TCPStreamInfo) (ip : IPv4Header) (t : TCPHeader),
      lookupBds fs.bidiStreams (connectionKey p.netFlow p.tcpFlow) = some bds →
      bds.inn = some innS → bds.out = some outS →
      p.ipv4 = some ip → p.tcp = some t →
      (logPacketSize st fs p).panics =
        (if innS.netFlow = p.netFlow then st.incomingPayload else st.outgoingPayload)) := by
  refine ⟨rfl, rfl, by simp [runIn, takeRequest], ?_, ?_⟩
  · intro bds h
    simp [factoryNew, h]
  · intro bds innS outS ip t h hinn hout hip ht
    simp only [logPacketSize, h, hinn, hout, hip, ht]
    split <;> simp [PacketOutcome.panics]

/-- Witness for C3 (amended) at concrete inputs: with every storage call
erring, the attach call logs the open-connection error and completes,
while the packet accountant panics on the inbound sample packet. -/
theorem storage_error_logged_except_payload_calls_witness :
    lookupBds sampleFactory.bidiStreams (connectionKey sampleNet sampleTcp) =
        some sampleEntry ∧
      (factoryNew errStorage sampleFactory sampleNet sampleTcp).2.1 =
        [.openConn (connectionKey sampleNet sampleTcp), .logStorageError] ∧
      (logPacketSize errStorage sampleFactory samplePacketIn).panics = true := by
  refine ⟨by decide, ?_, ?_⟩
  · have h := (storage_error_logged_except_payload_calls errStorage false [] []
      [] ⟨"GET", "/a", 0⟩ ⟨200, 0⟩ 0 sampleFactory sampleNet sampleTcp
      samplePacketIn).2.2.2.1 sampleEntry (by decide)
    simpa using h
  · have h := (storage_error_logged_except_payload_calls errStorage false [] []
      [] ⟨"GET", "/a", 0⟩ ⟨200, 0⟩ 0 sampleFactory sampleNet sampleTcp
      samplePacketIn).2.2.2.2 sampleEntry
      ⟨sampleNetRev, sampleTcpRev⟩ ⟨sampleNet, sampleTcp⟩ ⟨60, 5⟩ ⟨5⟩
      (by decide) (by decide) (by decide) (by decide) (by decide)
    simpa [errStorage] using h

/-- Joint state of one connection's two reader goroutines and their
shared bounded channel `bds.requests` (`make(chan *http.Request, 100)`,
`src/main.go:195`).  `outTokens`/`inTokens` are the parse outcomes the two
reassembled streams still hold; `queue` is the channel contents (Go
channels deliver in FIFO order); `sent` and `matched` are the histories of
`SentRequest` and `ReceivedResponse` notifications as `(reqID, request)`
pairs; `outSeq`/`inSeq` are the two goroutines' independent `reqID`
counters; `inProg` is the inbound side's `reqInProgress`. -/
structure SysState where
  outTokens : List OutParse
  inTokens : List InParse
  queue : List Request
  sent : List (Nat × Request)
  matched : List (Nat × Request)
  outSeq : Nat
  inSeq : Nat
  inProg : Option Request
deriving Repr, DecidableEq

/-- Interleaving semantics of the two reader goroutines of one connection
(`runOut` and `runIn` acting on the shared channel): each constructor is
one loop iteration (or, for `inPop`, the blocking receive inside one).
A send on the capacity-100 channel is enabled only while the channel
holds fewer than 100 requests (`src/main.go:90,195`); the receive
`<-bds.requests` pops the oldest request (FIFO). -/
inductive Step : SysState → SysState → Prop where
  | outRequest {s : SysState} (r : Request) (rest : List OutParse) :
      s.outTokens = .request r :: rest →
      s.queue.length < 100 →
      Step s { s with outTokens := rest, queue := s.queue ++ [r],
                      sent := s.sent ++ [(s.outSeq, r)], outSeq := s.outSeq + 1 }
  | outParseError {s : SysState} (rest : List OutParse) :
      s.outTokens = .parseError :: rest →
      Step s { s with outTokens := rest }
  | inPop {s : SysState} (r : Request) (q : List Request) :
      s.inTokens ≠ [] → s.inProg = none → s.queue = r :: q →
      Step s { s with inProg := some r, queue := q }
  | inResponse {s : SysState} (r : Request) (resp : Response) (rest : List InParse) :
      s.inTokens = .response resp :: rest → s.inProg = some r →
      Step s { s with inTokens := rest, inProg := none,
                      matched := s.matched ++ [(s.inSeq, r)], inSeq := s.inSeq + 1 }
  | inParseError {s : SysState} (r : Request) (rest : List InParse) :
      s.inTokens = .parseError :: rest → s.inProg = some r →
      Step s { s with inTokens := rest }
  | inEofMidParse {s : SysState} (r : Request) (rest : List InParse) :
      s.inTokens = .eofMidParse :: rest → s.inProg = some r →
      Step s { s with inTokens := [] }

/-- Initial state of a connection: both streams pending, channel empty,
both `reqID` counters zero (`var reqID int64`), no request in progress. -/
def initSys (outTok : List OutParse) (inTok : List InParse) : SysState :=
  ⟨outTok, inTok, [], [], [], 0, 0, none⟩

/-- The states one connection's goroutine pair can reach from the initial
state under any interleaving. -/
inductive Reachable (outTok : List OutParse) (inTok : List InParse) : SysState → Prop where
  | init : Reachable outTok inTok (initSys outTok inTok)
  | step {s t : SysState} : Reachable outTok inTok s → Step s t →
      Reachable outTok inTok t

/-- Correlation invariant: the two counters equal the lengths of their
notification histories, both histories carry sequence indices 0,1,2,…,
every pushed request is in exactly one place (already matched, held as
`reqInProgress`, or still queued) in push order, and the channel never
exceeds its capacity. -/
def Inv (s : SysState) : Prop :=
  s.outSeq = s.sent.length ∧
  s.inSeq = s.matched.length ∧
  s.sent.map Prod.fst = List.range s.sent.length ∧
  s.matched.map Prod.fst = List.range s.matched.length ∧
  s.sent.map Prod.snd = s.matched.map Prod.snd ++ s.inProg.toList ++ s.queue ∧
  s.queue.length ≤ 100

theorem inv_initSys (outTok : List OutParse) (inTok : List InParse) :
    Inv (initSys outTok inTok) := by
  refine ⟨rfl, rfl, by simp [initSys], by simp [initSys], by simp [initSys],
    by simp [initSys]⟩

theorem inv_step {s t : SysState} (hst : Step s t) (h : Inv s) : Inv t := by
  obtain ⟨h1, h2, h3, h4, h5, h6⟩ := h
  cases hst with
  | outRequest r rest htok hlt =>
      refine ⟨?_, ?_, ?_, ?_, ?_, ?_⟩
      · simp [h1]
      · simpa using h2
      · simp [h1, h3, List.range_succ]
      · simpa using h4
      · simp [h5, List.append_assoc]
      · simp only [List.length_append, List.length_cons, List.length_nil]
        omega
  | outParseError rest htok => exact ⟨h1, h2, h3, h4, h5, h6⟩
  | inPop r q hne hip hq =>
      refine ⟨h1, ?_, h3, h4, ?_, ?_⟩
      · simpa using h2
      · simp only [h5, hip, hq]
        simp
      · have := h6
        rw [hq] at this
        simp only [List.length_cons] at this
        simpa using by omega
  | inResponse r resp rest htok hip =>
      refine ⟨h1, ?_, h3, ?_, ?_, h6⟩
      · simp [h2]
      · simp [h2, h4, List.range_succ]
      · simp only [h5, hip]
        simp [List.append_assoc]
  | inParseError r rest htok hip => exact ⟨h1, h2, h3, h4, h5, h6⟩
  | inEofMidParse r rest htok hip => exact ⟨h1, h2, h3, h4, h5, h6⟩

theorem inv_reachable {outTok : List OutParse} {inTok : List InParse} {s : SysState}
    (h : Reachable outTok inTok s) : Inv s := by
  induction h with
  | init => exact inv_initSys outTok inTok
  | step _ hst ih => exact inv_step hst ih

theorem list_get_congr {α : Type} (L M : List α) (h : L = M) (i : Nat)
    (hi : i < L.length) (hj : i < M.length) : L.get ⟨i, hi⟩ = M.get ⟨i, hj⟩ := by
  subst h; rfl

theorem list_get_take {α : Type} (L M : List α) (n : Nat) (h : L.take n = M) (i : Nat)
    (hi : i < M.length) (hj : i < L.length) : M.get ⟨i, hi⟩ = L.get ⟨i, hj⟩ := by
  subst h; simp

/-- C1: pipelining correctness.  In every reachable state of a
connection's goroutine pair, the `i`-th `ReceivedResponse` notification
carries sequence index `i` and the very request of the `i`-th
`SentRequest` notification (requests enter the channel in parse order, so
the `i`-th sent request is the `i`-th pushed one), whose sequence index is
also `i`: both counters start at zero and advance by one per successfully
parsed message, and the FIFO channel aligns them. -/
theorem pipelined_response_matches_fifo_request
    (outTok : List OutParse) (inTok : List InParse) (s : SysState)
    (hs : Reachable outTok inTok s) (i : Nat) (hi : i < s.matched.length) :
    ∃ hj : i < s.sent.length,
      (s.matched.get ⟨i, hi⟩).1 = i ∧
      (s.sent.get ⟨i, hj⟩).1 = i ∧
      (s.matched.get ⟨i, hi⟩).2 = (s.sent.get ⟨i, hj⟩).2 := by
  obtain ⟨h1, h2, h3, h4, h5, h6⟩ := inv_reachable hs
  have hlen := congrArg List.length h5
  simp only [List.length_map, List.length_append] at hlen
  have hj : i < s.sent.length := by omega
  refine ⟨hj, ?_, ?_, ?_⟩
  · have e := list_get_congr (s.matched.map Prod.fst) (List.range s.matched.length)
      h4 i (by simpa using hi) (by simpa using hi)
    simpa using e
  · have e := list_get_congr (s.sent.map Prod.fst) (List.range s.sent.length)
      h3 i (by simpa using hj) (by simpa using hj)
    simpa using e
  · have htake : (s.sent.map Prod.snd).take s.matched.length = s.matched.map Prod.snd := by
      rw [h5, List.append_assoc]
      exact List.take_left' (by simp)
    have e := list_get_take (s.sent.map Prod.snd) (s.matched.map Prod.snd)
      s.matched.length htake i (by simpa using hi) (by simpa using hj)
    simpa using e

/-- Two pipelined requests for the concrete interleaving below. -/
def pipeReqA : Request := ⟨"GET", "/a", 0⟩

/-- Second pipelined request. -/
def pipeReqB : Request := ⟨"GET", "/b", 0⟩

/-- Response matched to the first request. -/
def pipeRespA : Response := ⟨200, 0⟩

/-- Response matched to the second request. -/
def pipeRespB : Response := ⟨204, 0⟩

/-- Outbound stream: two back-to-back pipelined requests. -/
def pipeOutTok : List OutParse := [.request pipeReqA, .request pipeReqB]

/-- Inbound stream: the two responses, in order. -/
def pipeInTok : List InParse := [.response pipeRespA, .response pipeRespB]

/-- The state after both requests were sent and both responses matched. -/
def pipeS6 : SysState :=
  ⟨[], [], [], [(0, pipeReqA), (1, pipeReqB)], [(0, pipeReqA), (1, pipeReqB)], 2, 2, none⟩

theorem pipeline_sample_reachable : Reachable pipeOutTok pipeInTok pipeS6 :=
  Reachable.step
    (Reachable.step
      (Reachable.step
        (Reachable.step
          (Reachable.step
            (Reachable.step Reachable.init
              (Step.outRequest pipeReqA [.request pipeReqB] rfl (by decide)))
            (Step.outRequest pipeReqB [] rfl (by decide)))
          (Step.inPop pipeReqA [pipeReqB] (by decide) rfl rfl))
        (Step.inResponse pipeReqA pipeRespA [.response pipeRespB] rfl rfl))
      (Step.inPop pipeReqB [] (by decide) rfl rfl))
    (Step.inResponse pipeReqB pipeRespB [] rfl rfl)

/-- Witness for C1 at a concrete interleaving: two pipelined requests,
both responses arriving afterwards; the second response (index 1) is
matched with the second request. -/
theorem pipelined_response_matches_fifo_request_witness :
    Reachable pipeOutTok pipeInTok pipeS6 ∧ 1 < pipeS6.matched.length ∧
      ∃ hj : 1 < pipeS6.sent.length,
        (pipeS6.matched.get ⟨1, by decide⟩).1 = 1 ∧
        (pipeS6.sent.get ⟨1, hj⟩).1 = 1 ∧
        (pipeS6.matched.get ⟨1, by decide⟩).2 = (pipeS6.sent.get ⟨1, hj⟩).2 :=
  ⟨pipeline_sample_reachable, by decide,
   pipelined_response_matches_fifo_request pipeOutTok pipeInTok pipeS6
     pipeline_sample_reachable 1 (by decide)⟩

/-- C9: the in-flight request channel is bounded by its fixed capacity of
exactly 100 in every reachable state, and when it holds 100 unanswered
requests no step can push another one (the send blocks: no transition
extends the `SentRequest` history or grows the queue) until the inbound
side consumes one. -/
theorem fifo_capacity_100_and_blocking
    (outTok : List OutParse) (inTok : List InParse) (s : SysState)
    (hs : Reachable outTok inTok s) :
    s.queue.length ≤ 100 ∧
      (s.queue.length = 100 → ∀ t : SysState, Step s t →
        t.sent = s.sent ∧ t.queue.length ≤ s.queue.length) := by
  refine ⟨(inv_reachable hs).2.2.2.2.2, ?_⟩
  intro hfull t hst
  cases hst with
  | outRequest r rest htok hlt => exact absurd hfull (by omega)
  | outParseError rest htok => exact ⟨rfl, le_rfl⟩
  | inPop r q hne hip hq =>
      refine ⟨rfl, ?_⟩
      rw [hq]
      simp
  | inResponse r resp rest htok hip => exact ⟨rfl, le_rfl⟩
  | inParseError r rest htok hip => exact ⟨rfl, le_rfl⟩
  | inEofMidParse r rest htok hip => exact ⟨rfl, le_rfl⟩

/-- Witness for C9 at the concrete reachable state of the pipelined
scenario. -/
theorem fifo_capacity_100_and_blocking_witness :
    Reachable pipeOutTok pipeInTok pipeS6 ∧ pipeS6.queue.length ≤ 100 :=
  ⟨pipeline_sample_reachable,
   (fifo_capacity_100_and_blocking pipeOutTok pipeInTok pipeS6
     pipeline_sample_reachable).1⟩

end Trmon
